import Mathlib

/-!
Verification of the balls-game physics core (Rust sources `src/lib.rs` and
`src/main.rs`) against its natural-language specification.

The embedding models `f32` by the real numbers: all arithmetic is exact, the
transcendental functions are the mathematical ones (`Real.sqrt`, `Real.cos`,
`Real.sin`, and `atan2` via the principal argument of a complex number).
Rendering, randomness and window management are outside the modelled core, as
the specification declares them external collaborators.
-/

namespace BallsGame

/-- Two-argument arctangent, as Rust's `y.atan2(x)`: the principal argument of
the complex number `x + y·i`, with range `(-π, π]` and `atan2 0 0 = 0`. -/
noncomputable def atan2 (y x : ℝ) : ℝ :=
  Complex.arg ⟨x, y⟩

/-- Vector of direction and magnitude (`struct AngleVec` in `lib.rs`). -/
structure AngleVec where
  direction : ℝ
  magnitude : ℝ

/-- Convert xy values into angle vector (`AngleVec::from_xy`). -/
noncomputable def AngleVec.from_xy (x y : ℝ) : AngleVec :=
  ⟨atan2 y x, Real.sqrt (x * x + y * y)⟩

/-- Convert angle vector into xy values (`AngleVec::to_xy`). -/
noncomputable def AngleVec.to_xy (v : AngleVec) : ℝ × ℝ :=
  (v.magnitude * Real.cos v.direction, v.magnitude * Real.sin v.direction)

/-- Keep value between a min and max (`clamp` in `lib.rs`; the Rust function
mutates its argument, modelled here as returning the new value). -/
noncomputable def clamp (value min max : ℝ) : ℝ :=
  if value > max then max
  else if value < min then min
  else value

/-- Rust's `f32::signum`, restricted to the real-number model: `1` for
nonnegative input (Rust returns `1.0` for `+0.0`), `-1` for negative input. -/
noncomputable def rustSignum (x : ℝ) : ℝ :=
  if x < 0 then -1 else 1

/-- Apply deceleration to a value; set value to zero if deceleration amount is
more than value (`slow` in `lib.rs`, modelled as returning the new value). -/
noncomputable def slow (value deceleration : ℝ) : ℝ :=
  if |value| < deceleration then 0
  else value - deceleration * rustSignum value

/-- Screen-space point (`Point2<f32>` from the mint crate). -/
structure Point where
  x : ℝ
  y : ℝ

/-- Ball with position and velocity (`struct Ball` in `lib.rs`). The `color`
field is an opaque render attribute, never interpreted by the core; it is
modelled as a bare number. -/
structure Ball where
  point : Point
  velocity : AngleVec
  radius : ℝ
  color : Nat
  is_colliding : Bool

/-- Acceleration magnitude (`Ball::ACCELERATION`). -/
noncomputable def Ball.ACCELERATION : ℝ := 0.3

/-- Maximum absolute velocity (`Ball::MAX_VELOCITY`). -/
noncomputable def Ball.MAX_VELOCITY : ℝ := 120.0

/-- Deceleration amount for friction (`Ball::DECELERATION`). -/
noncomputable def Ball.DECELERATION : ℝ := 1.5

/-- Deceleration amount for bounce force (`Ball::BOUNCE_DECELERATION`). -/
noncomputable def Ball.BOUNCE_DECELERATION : ℝ := 2.0

/-- Relative magnitude of velocity in slow mode (`Ball::SLOW_MAGNITUDE`). -/
noncomputable def Ball.SLOW_MAGNITUDE : ℝ := 0.2

/-- Check for collision with another ball (`impl Collides<Self> for Ball`):
squared distance of centers at most squared sum of radii. The Rust function
returns `bool`; the proposition here is its truth value. -/
def Ball.collides (a other : Ball) : Prop :=
  (a.point.x - other.point.x) ^ 2 + (a.point.y - other.point.y) ^ 2
    ≤ (a.radius + other.radius) ^ 2

noncomputable instance (a other : Ball) : Decidable (Ball.collides a other) := by
  unfold Ball.collides
  exact inferInstance

/-- First index in a list satisfying a predicate, scanning in storage order
with early exit — the `for (i, ball) in balls.iter().enumerate()` selection
loop in `BallsGame::update`. -/
def findFirst {α : Type} (p : α → Bool) : List α → Option Nat
  | [] => none
  | a :: as => if p a then some 0 else (findFirst p as).map (· + 1)

/-- Read-only per-tick input snapshot consumed by `BallsGame::update`:
pointer position, key/button states, and canvas drawable size. -/
structure Input where
  cursor : Point
  zHeld : Bool
  cHeld : Bool
  leftJustPressed : Bool
  leftJustReleased : Bool
  width : ℝ
  height : ℝ

/-- Simulation state (`struct BallsGame` in `main.rs`): the ball collection and
the optional index of the grabbed ball. -/
structure GameState where
  balls : List Ball
  active_ball : Option Nat

/-- Snap phase of the tick: while the Z key is held and a ball is active, move
that ball's center to the cursor (`main.rs` lines 98–104). The `none` fallback
is unreachable under the index invariant; Rust indexing would panic there. -/
noncomputable def snapBall (inp : Input) (g : GameState) : GameState :=
  if inp.zHeld then
    match g.active_ball with
    | some active =>
      match g.balls.get? active with
      | some ball => ⟨g.balls.set active { ball with point := inp.cursor }, g.active_ball⟩
      | none => g
    | none => g
  else g

/-- Press phase: on the left-button press edge, the active ball defaults to
`none` and becomes the first ball whose radius-sized bounding square contains
the cursor (`main.rs` lines 107–121). -/
noncomputable def selectBall (inp : Input) (g : GameState) : GameState :=
  ⟨g.balls, findFirst
    (fun ball => decide (|ball.point.x - inp.cursor.x| < ball.radius ∧
                         |ball.point.y - inp.cursor.y| < ball.radius))
    g.balls⟩

/-- Release phase: on the left-button release edge, give the active ball (if
any) the velocity `from_xy(ball.point − cursor)` with magnitude scaled by
`ACCELERATION`, then clear the active ball (`main.rs` lines 122–135). The
`none` index fallback is unreachable under the index invariant. -/
noncomputable def releaseBall (inp : Input) (g : GameState) : GameState :=
  match g.active_ball with
  | some active =>
    match g.balls.get? active with
    | some ball =>
      let v := AngleVec.from_xy (ball.point.x - inp.cursor.x) (ball.point.y - inp.cursor.y)
      ⟨g.balls.set active { ball with velocity := ⟨v.direction, v.magnitude * Ball.ACCELERATION⟩ },
        none⟩
    | none => ⟨g.balls, none⟩
  | none => ⟨g.balls, none⟩

/-- Physics phase for one ball (`main.rs` lines 138–195): clamp the velocity
magnitude, integrate the (speed-scaled) velocity into the position, apply
friction, then bounce and clamp against the canvas boundary. -/
noncomputable def moveBall (inp : Input) (ball : Ball) : Ball :=
  let mag0 := clamp ball.velocity.magnitude (-Ball.MAX_VELOCITY) Ball.MAX_VELOCITY
  let speed := if inp.cHeld then Ball.SLOW_MAGNITUDE else 1
  let xy := AngleVec.to_xy ⟨ball.velocity.direction, mag0 * speed⟩
  let x0 := ball.point.x + xy.1
  let y0 := ball.point.y + xy.2
  let mag1 := slow mag0 (Ball.DECELERATION * speed)
  let bounce := x0 < ball.radius ∨ x0 > inp.width - ball.radius ∨
      y0 < ball.radius ∨ y0 > inp.height - ball.radius
  let dir1 := if bounce then ball.velocity.direction * (-1) else ball.velocity.direction
  let mag2 := if bounce then slow mag1 (Ball.BOUNCE_DECELERATION * speed) else mag1
  let dir2 := if x0 < ball.radius then dir1 + Real.pi
    else if x0 > inp.width - ball.radius then dir1 + Real.pi
    else dir1
  let x1 := if x0 < ball.radius then ball.radius
    else if x0 > inp.width - ball.radius then inp.width - ball.radius
    else x0
  let y1 := if y0 < ball.radius then ball.radius
    else if y0 > inp.height - ball.radius then inp.height - ball.radius
    else y0
  { ball with
    point := ⟨x1, y1⟩
    velocity := ⟨dir2, mag2⟩ }

/-- Collision response against one partner (`main.rs` lines 212–232): if the
balls overlap, mark the ball colliding and average its velocity, component by
polar component, with the repulsion vector
`⟨atan2 (Δy) (Δx), 10 / (radius / other.radius)⟩`. -/
noncomputable def collideBall (other ball : Ball) : Ball :=
  if ball.collides other then
    let x := ball.point.x - other.point.x
    let y := ball.point.y - other.point.y
    let new : AngleVec := ⟨atan2 y x, 10 / (ball.radius / other.radius)⟩
    { ball with
      is_colliding := true
      velocity := ⟨(new.direction + ball.velocity.direction) / 2,
                   (new.magnitude + ball.velocity.magnitude) / 2⟩ }
  else ball

/-- Inner loop of the collision pass: fold `collideBall` over the previous
snapshot, skipping the partner whose index equals the ball's own index `i`
(the `if i == j continue` in `main.rs`); `j` is the index of the head. -/
noncomputable def resolveAux (i : Nat) : Nat → List Ball → Ball → Ball
  | _, [], b => b
  | j, other :: rest, b =>
    resolveAux i (j + 1) rest (if j = i then b else collideBall other b)

/-- Collision resolution for the ball at index `i`: reset `is_colliding` and
fold over all other balls of the previous snapshot (`main.rs` lines 200–236). -/
noncomputable def resolveBall (balls : List Ball) (i : Nat) (ball : Ball) : Ball :=
  resolveAux i 0 balls { ball with is_colliding := false }

/-- Collision pass over the whole collection: each ball is resolved against the
previous snapshot, and the fresh collection replaces it (`main.rs` 197–238);
the auxiliary index counts positions from `i`. -/
noncomputable def collidePassAux (balls : List Ball) : Nat → List Ball → List Ball
  | _, [] => []
  | i, b :: rest => resolveBall balls i b :: collidePassAux balls (i + 1) rest

/-- Collision pass entry point: resolve every ball against the snapshot. -/
noncomputable def collidePass (balls : List Ball) : List Ball :=
  collidePassAux balls 0 balls

/-- Mouse phase of the tick: the press edge selects, otherwise the release
edge launches; with neither edge the state passes through unchanged
(`main.rs` lines 107–135). -/
noncomputable def mousePhase (inp : Input) (g : GameState) : GameState :=
  if inp.leftJustPressed then selectBall inp g
  else if inp.leftJustReleased then releaseBall inp g
  else g

/-- One full simulation tick (`BallsGame::update`, non-reset path): snap phase,
mouse press/release phase, physics phase for every ball, then the collision
pass published as the new collection. -/
noncomputable def GameState.update (inp : Input) (g : GameState) : GameState :=
  ⟨collidePass ((mousePhase inp (snapBall inp g)).balls.map (moveBall inp)),
   (mousePhase inp (snapBall inp g)).active_ball⟩

/-- Reset (`BallsGame::new`): the randomly generated collection is external
input here; the active ball starts cleared. -/
def GameState.reset (newBalls : List Ball) : GameState :=
  ⟨newBalls, none⟩

/-- Selection validity invariant: any stored active index is in range. -/
def validSel (g : GameState) : Prop :=
  ∀ i, g.active_ball = some i → i < g.balls.length

/-- Ordered list of the partners that the ball at index `i` actually collides
with, in storage order — the sequence of contributions the inner collision
loop applies; `j` is the index of the list head. -/
noncomputable def collidingOthersAux (ball : Ball) (i : Nat) : Nat → List Ball → List Ball
  | _, [] => []
  | j, other :: rest =>
    if j ≠ i ∧ ball.collides other then other :: collidingOthersAux ball i (j + 1) rest
    else collidingOthersAux ball i (j + 1) rest

/-- Colliding partners of the ball at index `i`, scanning from index 0. -/
noncomputable def collidingOthers (ball : Ball) (i : Nat) (balls : List Ball) : List Ball :=
  collidingOthersAux ball i 0 balls

/-- One partner's contribution to the velocity, as the specification phrases
it: average the direction with `atan2 (a.y − b.y) (a.x − b.x)` and the
magnitude with `10 / (a.radius / b.radius)`. -/
noncomputable def blendStep (ball o : Ball) (v : AngleVec) : AngleVec :=
  ⟨(atan2 (ball.point.y - o.point.y) (ball.point.x - o.point.x) + v.direction) / 2,
   (10 / (ball.radius / o.radius) + v.magnitude) / 2⟩

/- ### Claim C1 -/

/-- C1: the overlap predicate holds exactly when
`(a.x − b.x)² + (a.y − b.y)² ≤ (a.radius + b.radius)²`; two radius-10 balls at
`(0,0)` and `(15,0)` collide (225 ≤ 400) while at `(0,0)` and `(25,0)` they do
not (625 > 400); and the predicate is symmetric. -/
theorem claim_C1 :
    (∀ a b : Ball, a.collides b ↔
      (a.point.x - b.point.x) ^ 2 + (a.point.y - b.point.y) ^ 2
        ≤ (a.radius + b.radius) ^ 2) ∧
    (Ball.collides ⟨⟨0, 0⟩, ⟨0, 0⟩, 10, 0, false⟩ ⟨⟨15, 0⟩, ⟨0, 0⟩, 10, 0, false⟩) ∧
    (¬ Ball.collides ⟨⟨0, 0⟩, ⟨0, 0⟩, 10, 0, false⟩ ⟨⟨25, 0⟩, ⟨0, 0⟩, 10, 0, false⟩) ∧
    (∀ a b : Ball, a.collides b ↔ b.collides a) := by
  refine ⟨fun a b => Iff.rfl, by unfold Ball.collides; norm_num,
    by unfold Ball.collides; norm_num, fun a b => ?_⟩
  unfold Ball.collides
  constructor <;> intro h <;> nlinarith [h]

/- ### Claim C2 -/

/-- C2: for every value and deceleration ≥ 0, `slow` never increases the
absolute value; the result is zero exactly when `|value| ≤ deceleration`; and a
nonzero result keeps the sign of the input. -/
theorem claim_C2 (value deceleration : ℝ) (hd : 0 ≤ deceleration) :
    |slow value deceleration| ≤ |value| ∧
    (slow value deceleration = 0 ↔ |value| ≤ deceleration) ∧
    (slow value deceleration ≠ 0 →
      ((0 < slow value deceleration ↔ 0 < value) ∧
       (slow value deceleration < 0 ↔ value < 0))) := by
  by_cases h : |value| < deceleration
  · have hz : slow value deceleration = 0 := by unfold slow; rw [if_pos h]
    rw [hz]
    exact ⟨by rw [abs_zero]; exact abs_nonneg value,
      ⟨fun _ => le_of_lt h, fun _ => rfl⟩, fun hne => absurd rfl hne⟩
  · have hdle : deceleration ≤ |value| := not_lt.mp h
    have he : slow value deceleration = value - deceleration * rustSignum value := by
      unfold slow; rw [if_neg h]
    rcases lt_or_ge value 0 with hneg | hpos
    · have hs : rustSignum value = -1 := by unfold rustSignum; rw [if_pos hneg]
      rw [he, hs]
      have habs : |value| = -value := abs_of_neg hneg
      rw [habs] at hdle
      have hle : value - deceleration * (-1) ≤ 0 := by linarith
      refine ⟨?_, ⟨fun h0 => ?_, fun h0 => ?_⟩, fun hne => ?_⟩
      · rw [abs_of_nonpos hle, habs]; linarith
      · rw [habs]; linarith
      · rw [habs] at h0; linarith
      · have hlt : value - deceleration * (-1) < 0 := lt_of_le_of_ne hle hne
        refine ⟨?_, ?_⟩ <;> constructor <;> intro hx <;> linarith
    · have hs : rustSignum value = 1 := by unfold rustSignum; rw [if_neg (not_lt.mpr hpos)]
      rw [he, hs]
      have habs : |value| = value := abs_of_nonneg hpos
      rw [habs] at hdle
      have hge : 0 ≤ value - deceleration * 1 := by linarith
      refine ⟨?_, ⟨fun h0 => ?_, fun h0 => ?_⟩, fun hne => ?_⟩
      · rw [abs_of_nonneg hge, habs]; linarith
      · rw [habs]; linarith
      · rw [habs] at h0; linarith
      · have hlt : 0 < value - deceleration * 1 := lt_of_le_of_ne hge (Ne.symm hne)
        refine ⟨?_, ?_⟩ <;> constructor <;> intro hx <;> linarith

/-- Witness for C2 at `value = 5`, `deceleration = 3/2`. -/
theorem claim_C2_witness :
    (0:ℝ) ≤ 3/2 ∧
    (|slow 5 (3/2)| ≤ |(5:ℝ)| ∧
     (slow 5 (3/2) = 0 ↔ |(5:ℝ)| ≤ 3/2) ∧
     (slow 5 (3/2) ≠ 0 →
       ((0 < slow 5 (3/2) ↔ (0:ℝ) < 5) ∧ (slow 5 (3/2) < 0 ↔ (5:ℝ) < 0)))) :=
  ⟨by norm_num, claim_C2 5 (3/2) (by norm_num)⟩

/- ### Claim C3 -/

/-- C3: for `min ≤ max`, `clamp` lands in `[min, max]` and fixes every value
already inside the interval. -/
theorem claim_C3 (value min max : ℝ) (h : min ≤ max) :
    (min ≤ clamp value min max ∧ clamp value min max ≤ max) ∧
    (min ≤ value → value ≤ max → clamp value min max = value) := by
  unfold clamp
  constructor
  · split_ifs <;> constructor <;> linarith
  · intro h1 h2
    rw [if_neg (by linarith), if_neg (by linarith)]

/-- Witness for C3 at `value = 7`, `min = 0`, `max = 10`. -/
theorem claim_C3_witness :
    (0:ℝ) ≤ 10 ∧
    (((0:ℝ) ≤ clamp 7 0 10 ∧ clamp 7 0 10 ≤ 10) ∧
     ((0:ℝ) ≤ 7 → (7:ℝ) ≤ 10 → clamp 7 0 10 = 7)) :=
  ⟨by norm_num, claim_C3 7 0 10 (by norm_num)⟩

/- ### Claim C5 -/

/-- C5 counterexample: the round trip does not reproduce every vector's
magnitude. For `v = ⟨direction 0, magnitude −1⟩`, `from_xy (to_xy v)` has
magnitude `1 ≠ −1` (the round trip returns the absolute value). -/
theorem claim_C5_counterexample :
    (AngleVec.from_xy (AngleVec.to_xy ⟨0, -1⟩).1 (AngleVec.to_xy ⟨0, -1⟩).2).magnitude = 1 ∧
    (1:ℝ) ≠ -1 := by
  constructor
  · simp only [AngleVec.to_xy, AngleVec.from_xy]
    norm_num [Real.cos_zero, Real.sin_zero, Real.sqrt_one]
  · norm_num

/-- C5 (amended): for a vector with nonnegative magnitude the round trip
`from_xy (to_xy v)` reproduces the magnitude exactly; it reproduces the
direction when the magnitude is positive and the direction lies in the
principal range `(−π, π]`; and `to_xy (from_xy x y) = (x, y)` holds exactly for
all inputs in the real-number model. -/
theorem claim_C5 :
    (∀ v : AngleVec, 0 ≤ v.magnitude →
      (AngleVec.from_xy (AngleVec.to_xy v).1 (AngleVec.to_xy v).2).magnitude = v.magnitude) ∧
    (∀ v : AngleVec, 0 < v.magnitude → -Real.pi < v.direction → v.direction ≤ Real.pi →
      (AngleVec.from_xy (AngleVec.to_xy v).1 (AngleVec.to_xy v).2).direction = v.direction) ∧
    (∀ x y : ℝ, AngleVec.to_xy (AngleVec.from_xy x y) = (x, y)) := by
  refine ⟨fun v hm => ?_, fun v hm h1 h2 => ?_, fun x y => ?_⟩
  · simp only [AngleVec.to_xy, AngleVec.from_xy]
    have h := Real.sin_sq_add_cos_sq v.direction
    have key : v.magnitude * Real.cos v.direction * (v.magnitude * Real.cos v.direction) +
        v.magnitude * Real.sin v.direction * (v.magnitude * Real.sin v.direction)
        = v.magnitude ^ 2 := by
      linear_combination v.magnitude ^ 2 * h
    rw [key, Real.sqrt_sq hm]
  · simp only [AngleVec.to_xy, AngleVec.from_xy, atan2]
    have hz : (⟨v.magnitude * Real.cos v.direction, v.magnitude * Real.sin v.direction⟩ : ℂ)
        = (v.magnitude : ℂ) *
          (Complex.cos v.direction + Complex.sin v.direction * Complex.I) := by
      rw [Complex.mk_eq_add_mul_I, ← Complex.ofReal_cos, ← Complex.ofReal_sin]
      push_cast
      ring
    rw [hz, Complex.arg_mul_cos_add_sin_mul_I hm (Set.mem_Ioc.mpr ⟨h1, h2⟩)]
  · simp only [AngleVec.from_xy, AngleVec.to_xy, atan2]
    by_cases hz : (⟨x, y⟩ : ℂ) = 0
    · have hx : x = 0 := congrArg Complex.re hz
      have hy : y = 0 := congrArg Complex.im hz
      rw [hx, hy]
      norm_num [Real.sqrt_zero]
    · have hne : x ≠ 0 ∨ y ≠ 0 := by
        by_contra hcon
        push_neg at hcon
        exact hz (by apply Complex.ext <;> simp [hcon.1, hcon.2])
      have hsum : 0 < x * x + y * y := by
        rcases hne with hx | hy
        · have := mul_self_pos.mpr hx
          nlinarith [mul_self_nonneg y]
        · have := mul_self_pos.mpr hy
          nlinarith [mul_self_nonneg x]
      have hroot : 0 < Real.sqrt (x * x + y * y) := Real.sqrt_pos.mpr hsum
      have habs : Complex.abs ⟨x, y⟩ = Real.sqrt (x * x + y * y) := by
        rw [Complex.abs_apply, Complex.normSq_mk]
      have hcos := Complex.cos_arg hz
      have hsin := Complex.sin_arg (⟨x, y⟩ : ℂ)
      rw [habs] at hcos hsin
      rw [hcos, hsin]
      have hre : (⟨x, y⟩ : ℂ).re = x := rfl
      have him : (⟨x, y⟩ : ℂ).im = y := rfl
      rw [hre, him, Prod.mk.injEq]
      constructor <;> field_simp

/-- Witness for C5 at `v = ⟨direction 0, magnitude 2⟩` and `(x, y) = (3, 4)`. -/
theorem claim_C5_witness :
    ((0:ℝ) ≤ 2 ∧
      (AngleVec.from_xy (AngleVec.to_xy ⟨0, 2⟩).1 (AngleVec.to_xy ⟨0, 2⟩).2).magnitude = 2) ∧
    ((0:ℝ) < 2 ∧ -Real.pi < 0 ∧ (0:ℝ) ≤ Real.pi ∧
      (AngleVec.from_xy (AngleVec.to_xy ⟨0, 2⟩).1 (AngleVec.to_xy ⟨0, 2⟩).2).direction = 0) ∧
    AngleVec.to_xy (AngleVec.from_xy 3 4) = (3, 4) :=
  ⟨⟨by norm_num, claim_C5.1 ⟨0, 2⟩ (by norm_num)⟩,
   ⟨by norm_num, neg_lt_zero.mpr Real.pi_pos, Real.pi_pos.le,
    claim_C5.2.1 ⟨0, 2⟩ (by norm_num) (neg_lt_zero.mpr Real.pi_pos) Real.pi_pos.le⟩,
   claim_C5.2.2 3 4⟩

/- ### Collision pass lemmas -/

/-- One collision step never moves the ball. -/
theorem collideBall_point (other b : Ball) : (collideBall other b).point = b.point := by
  unfold collideBall
  split_ifs <;> rfl

/-- One collision step never resizes the ball. -/
theorem collideBall_radius (other b : Ball) : (collideBall other b).radius = b.radius := by
  unfold collideBall
  split_ifs <;> rfl

/-- The inner collision loop never moves or resizes the ball it resolves. -/
theorem resolveAux_point : ∀ (i j : Nat) (l : List Ball) (b : Ball),
    (resolveAux i j l b).point = b.point ∧ (resolveAux i j l b).radius = b.radius
  | _, _, [], _ => ⟨rfl, rfl⟩
  | i, j, o :: rest, b => by
    simp only [resolveAux]
    rcases resolveAux_point i (j + 1) rest (if j = i then b else collideBall o b) with ⟨hp, hr⟩
    rw [hp, hr]
    split_ifs
    · exact ⟨rfl, rfl⟩
    · exact ⟨collideBall_point o b, collideBall_radius o b⟩

/-- The inner collision loop applies exactly one `blendStep` per colliding
partner, sequentially in storage order, as long as the threaded ball keeps the
position and radius of the resolved ball (which it does). -/
theorem resolveAux_velocity (ball : Ball) : ∀ (i j : Nat) (l : List Ball) (b : Ball),
    b.point = ball.point → b.radius = ball.radius →
    (resolveAux i j l b).velocity =
      (collidingOthersAux ball i j l).foldl (fun v o => blendStep ball o v) b.velocity
  | _, _, [], _, _, _ => rfl
  | i, j, o :: rest, b, hp, hr => by
    by_cases hji : j = i
    · have h1 : resolveAux i j (o :: rest) b = resolveAux i (j + 1) rest b := by
        simp only [resolveAux, if_pos hji]
      have h2 : collidingOthersAux ball i j (o :: rest)
          = collidingOthersAux ball i (j + 1) rest := by
        simp only [collidingOthersAux]
        rw [if_neg (by simp [hji])]
      rw [h1, h2]
      exact resolveAux_velocity ball i (j + 1) rest b hp hr
    · by_cases hc : Ball.collides ball o
      · have hc' : Ball.collides b o := by
          unfold Ball.collides at hc ⊢
          rw [hp, hr]
          exact hc
        have hcb : collideBall o b = { b with
            is_colliding := true
            velocity := blendStep ball o b.velocity } := by
          simp only [collideBall, blendStep, if_pos hc']
          rw [hp, hr]
        have h1 : resolveAux i j (o :: rest) b
            = resolveAux i (j + 1) rest { b with
                is_colliding := true
                velocity := blendStep ball o b.velocity } := by
          simp only [resolveAux]
          rw [if_neg hji, hcb]
        have h2 : collidingOthersAux ball i j (o :: rest)
            = o :: collidingOthersAux ball i (j + 1) rest := by
          simp only [collidingOthersAux]
          rw [if_pos ⟨hji, hc⟩]
        rw [h1, h2, List.foldl_cons]
        exact resolveAux_velocity ball i (j + 1) rest _ hp hr
      · have hc' : ¬ Ball.collides b o := by
          unfold Ball.collides at hc ⊢
          rw [hp, hr]
          exact hc
        have hcb : collideBall o b = b := by
          unfold collideBall
          rw [if_neg hc']
        have h1 : resolveAux i j (o :: rest) b = resolveAux i (j + 1) rest b := by
          simp only [resolveAux]
          rw [if_neg hji, hcb]
        have h2 : collidingOthersAux ball i j (o :: rest)
            = collidingOthersAux ball i (j + 1) rest := by
          simp only [collidingOthersAux]
          rw [if_neg fun hand => hc hand.2]
        rw [h1, h2]
        exact resolveAux_velocity ball i (j + 1) rest b hp hr

/-- Collision resolution keeps position and radius. -/
theorem resolveBall_point (balls : List Ball) (i : Nat) (ball : Ball) :
    (resolveBall balls i ball).point = ball.point ∧
    (resolveBall balls i ball).radius = ball.radius :=
  resolveAux_point i 0 balls _

/-- Collision resolution folds `blendStep` over the colliding partners in
storage order, starting from the velocity the ball entered the pass with. -/
theorem resolveBall_velocity (balls : List Ball) (i : Nat) (ball : Ball) :
    (resolveBall balls i ball).velocity =
      (collidingOthers ball i balls).foldl (fun v o => blendStep ball o v) ball.velocity :=
  resolveAux_velocity ball i 0 balls _ rfl rfl

/-- Element lookup through the collision pass: position `n` of the output is
the resolution of position `n` of the input against the snapshot. -/
theorem collidePassAux_get? (balls : List Ball) : ∀ (l : List Ball) (k n : Nat),
    (collidePassAux balls k l).get? n = (l.get? n).map fun b => resolveBall balls (k + n) b
  | [], _, _ => by simp [collidePassAux]
  | b :: rest, k, 0 => by simp [collidePassAux]
  | b :: rest, k, n + 1 => by
    simp only [collidePassAux, List.get?]
    rw [collidePassAux_get? balls rest (k + 1) n]
    have harith : k + 1 + n = k + (n + 1) := by omega
    rw [harith]

/-- Element lookup through the collision pass, from the entry point. -/
theorem collidePass_get? (balls : List Ball) (n : Nat) :
    (collidePass balls).get? n = (balls.get? n).map fun b => resolveBall balls n b := by
  unfold collidePass
  rw [collidePassAux_get? balls balls 0 n]
  simp

/- ### Claim C4 -/

/-- C4: for a ball at index `i` whose only colliding partner this tick is `b`,
the collision pass publishes the velocity
`⟨(atan2 (a.y−b.y) (a.x−b.x) + d) / 2, (10 / (a.radius / b.radius) + m) / 2⟩`
where `d`, `m` are the direction and magnitude entering the pass; and in
general the published velocity is the sequential fold of one `blendStep` per
colliding partner in storage order, each step reading the velocity already
modified by the previous partner. -/
theorem claim_C4 :
    (∀ (balls : List Ball) (i : Nat) (ball b : Ball),
      balls.get? i = some ball →
      collidingOthers ball i balls = [b] →
      ((collidePass balls).get? i).map Ball.velocity =
        some ⟨(atan2 (ball.point.y - b.point.y) (ball.point.x - b.point.x)
                + ball.velocity.direction) / 2,
              (10 / (ball.radius / b.radius) + ball.velocity.magnitude) / 2⟩) ∧
    (∀ (balls : List Ball) (i : Nat) (ball : Ball),
      balls.get? i = some ball →
      ((collidePass balls).get? i).map Ball.velocity =
        some ((collidingOthers ball i balls).foldl
          (fun v o => blendStep ball o v) ball.velocity)) := by
  constructor
  · intro balls i ball b hget hone
    rw [collidePass_get?, hget, Option.map_some', Option.map_some',
      resolveBall_velocity, hone, List.foldl_cons, List.foldl_nil]
    rfl
  · intro balls i ball hget
    rw [collidePass_get?, hget, Option.map_some', Option.map_some',
      resolveBall_velocity]

/-- Witness for C4: two radius-10 balls at `(0,0)` and `(15,0)`; the first
collides exactly with the second. -/
theorem claim_C4_witness :
    ([⟨⟨0, 0⟩, ⟨0, 0⟩, 10, 0, false⟩, ⟨⟨15, 0⟩, ⟨0, 0⟩, 10, 0, false⟩] : List Ball).get? 0
      = some ⟨⟨0, 0⟩, ⟨0, 0⟩, 10, 0, false⟩ ∧
    collidingOthers ⟨⟨0, 0⟩, ⟨0, 0⟩, 10, 0, false⟩ 0
      [⟨⟨0, 0⟩, ⟨0, 0⟩, 10, 0, false⟩, ⟨⟨15, 0⟩, ⟨0, 0⟩, 10, 0, false⟩]
      = [⟨⟨15, 0⟩, ⟨0, 0⟩, 10, 0, false⟩] ∧
    ((collidePass [⟨⟨0, 0⟩, ⟨0, 0⟩, 10, 0, false⟩,
        ⟨⟨15, 0⟩, ⟨0, 0⟩, 10, 0, false⟩]).get? 0).map Ball.velocity =
      some ⟨(atan2 ((0:ℝ) - 0) ((0:ℝ) - 15) + 0) / 2, (10 / ((10:ℝ) / 10) + 0) / 2⟩ := by
  have hget : ([⟨⟨0, 0⟩, ⟨0, 0⟩, 10, 0, false⟩,
      ⟨⟨15, 0⟩, ⟨0, 0⟩, 10, 0, false⟩] : List Ball).get? 0
      = some ⟨⟨0, 0⟩, ⟨0, 0⟩, 10, 0, false⟩ := rfl
  have hone : collidingOthers ⟨⟨0, 0⟩, ⟨0, 0⟩, 10, 0, false⟩ 0
      [⟨⟨0, 0⟩, ⟨0, 0⟩, 10, 0, false⟩, ⟨⟨15, 0⟩, ⟨0, 0⟩, 10, 0, false⟩]
      = [⟨⟨15, 0⟩, ⟨0, 0⟩, 10, 0, false⟩] := by
    unfold collidingOthers
    simp only [collidingOthersAux]
    rw [if_neg (by simp), if_pos ⟨by norm_num, by unfold Ball.collides; norm_num⟩]
  exact ⟨hget, hone, claim_C4.1 _ 0 _ _ hget hone⟩

/- ### Claim C6 -/

/-- C6 counterexample: with velocity direction 0 the ball at `x = 5` moves
right, not left — one tick of integration takes it to `x = 55`, inside
`[30, 1570]`, so no boundary clamp fires, the direction stays 0, and the
magnitude only loses the friction deceleration (`50 → 48.5`), not the bounce
deceleration. -/
theorem claim_C6_counterexample :
    (moveBall ⟨⟨0, 0⟩, false, false, false, false, 1600, 900⟩
      ⟨⟨5, 450⟩, ⟨0, 50⟩, 30, 0, false⟩).point.x = 55 ∧
    (moveBall ⟨⟨0, 0⟩, false, false, false, false, 1600, 900⟩
      ⟨⟨5, 450⟩, ⟨0, 50⟩, 30, 0, false⟩).velocity.direction = 0 ∧
    (moveBall ⟨⟨0, 0⟩, false, false, false, false, 1600, 900⟩
      ⟨⟨5, 450⟩, ⟨0, 50⟩, 30, 0, false⟩).velocity.magnitude = 48.5 ∧
    (55:ℝ) ≠ 30 := by
  norm_num [moveBall, clamp, slow, rustSignum, AngleVec.to_xy, Ball.MAX_VELOCITY,
    Ball.DECELERATION, Ball.BOUNCE_DECELERATION, Ball.SLOW_MAGNITUDE,
    Real.cos_zero, Real.sin_zero]

/-- C6 (amended): the scenario holds with velocity direction π (pointing left)
instead of 0. The displacement is negative, integration leaves the canvas on
the left, the bounce negates the direction and applies the bounce
deceleration, and the horizontal clamp sets `x = 30` and adds π to the
direction; the final magnitude lost both the friction and bounce
decelerations. -/
theorem claim_C6 :
    (AngleVec.to_xy ⟨Real.pi, 50⟩).1 < 0 ∧
    (moveBall ⟨⟨0, 0⟩, false, false, false, false, 1600, 900⟩
      ⟨⟨5, 450⟩, ⟨Real.pi, 50⟩, 30, 0, false⟩).point.x = 30 ∧
    (moveBall ⟨⟨0, 0⟩, false, false, false, false, 1600, 900⟩
      ⟨⟨5, 450⟩, ⟨Real.pi, 50⟩, 30, 0, false⟩).point.y = 450 ∧
    (moveBall ⟨⟨0, 0⟩, false, false, false, false, 1600, 900⟩
      ⟨⟨5, 450⟩, ⟨Real.pi, 50⟩, 30, 0, false⟩).velocity.direction
      = Real.pi * (-1) + Real.pi ∧
    Real.pi * (-1) + Real.pi = 0 ∧
    (moveBall ⟨⟨0, 0⟩, false, false, false, false, 1600, 900⟩
      ⟨⟨5, 450⟩, ⟨Real.pi, 50⟩, 30, 0, false⟩).velocity.magnitude
      = 50 - Ball.DECELERATION - Ball.BOUNCE_DECELERATION := by
  refine ⟨?_, ?_⟩
  · simp only [AngleVec.to_xy]
    rw [Real.cos_pi]
    norm_num
  · norm_num [moveBall, clamp, slow, rustSignum, AngleVec.to_xy, Ball.MAX_VELOCITY,
      Ball.DECELERATION, Ball.BOUNCE_DECELERATION, Ball.SLOW_MAGNITUDE,
      Real.cos_pi, Real.sin_pi, abs_of_nonneg (show (0:ℝ) ≤ 97/2 by norm_num)]

/- ### Claim C7 -/

/-- C7: on the pointer release edge with a grabbed ball, the ball takes the
velocity `from_xy (ball.point − cursor)` with magnitude scaled by the
acceleration constant and the active ball is cleared; releasing 100px to the
left of the center gives direction 0, pointing rightward. -/
theorem claim_C7 :
    (∀ (inp : Input) (g : GameState) (i : Nat) (ball : Ball),
      g.active_ball = some i → g.balls.get? i = some ball →
      releaseBall inp g =
        ⟨g.balls.set i { ball with velocity :=
            ⟨(AngleVec.from_xy (ball.point.x - inp.cursor.x)
                (ball.point.y - inp.cursor.y)).direction,
             (AngleVec.from_xy (ball.point.x - inp.cursor.x)
                (ball.point.y - inp.cursor.y)).magnitude * Ball.ACCELERATION⟩ },
          none⟩) ∧
    (∀ (inp : Input) (g : GameState), (releaseBall inp g).active_ball = none) ∧
    (AngleVec.from_xy 100 0).direction = 0 := by
  refine ⟨fun inp g i ball hact hget => ?_, fun inp g => ?_, ?_⟩
  · have hget' : g.balls[i]? = some ball := (List.get?_eq_getElem? _ _).symm.trans hget
    simp [releaseBall, hact, hget']
  · unfold releaseBall
    rcases g.active_ball with _ | i
    · rfl
    · cases hh : g.balls[i]? <;> simp [hh]
  · simp only [AngleVec.from_xy, atan2]
    have hco : (⟨(100:ℝ), (0:ℝ)⟩ : ℂ) = ((100:ℝ) : ℂ) := rfl
    rw [hco]
    exact Complex.arg_ofReal_of_nonneg (by norm_num)

/-- Witness for C7: one ball at `(300, 300)` grabbed, pointer released at
`(200, 300)`, 100px to the left. -/
theorem claim_C7_witness :
    (GameState.mk [⟨⟨300, 300⟩, ⟨0, 0⟩, 30, 0, false⟩] (some 0)).active_ball = some 0 ∧
    (GameState.mk [⟨⟨300, 300⟩, ⟨0, 0⟩, 30, 0, false⟩] (some 0)).balls.get? 0
      = some ⟨⟨300, 300⟩, ⟨0, 0⟩, 30, 0, false⟩ ∧
    releaseBall ⟨⟨200, 300⟩, false, false, false, true, 1600, 900⟩
        (GameState.mk [⟨⟨300, 300⟩, ⟨0, 0⟩, 30, 0, false⟩] (some 0)) =
      ⟨[⟨⟨300, 300⟩, ⟨0, 0⟩, 30, 0, false⟩].set 0
          { (⟨⟨300, 300⟩, ⟨0, 0⟩, 30, 0, false⟩ : Ball) with velocity :=
            ⟨(AngleVec.from_xy ((300:ℝ) - 200) ((300:ℝ) - 300)).direction,
             (AngleVec.from_xy ((300:ℝ) - 200) ((300:ℝ) - 300)).magnitude
               * Ball.ACCELERATION⟩ },
        none⟩ :=
  ⟨rfl, rfl, claim_C7.1 ⟨⟨200, 300⟩, false, false, false, true, 1600, 900⟩
    (GameState.mk [⟨⟨300, 300⟩, ⟨0, 0⟩, 30, 0, false⟩] (some 0)) 0
    ⟨⟨300, 300⟩, ⟨0, 0⟩, 30, 0, false⟩ rfl rfl⟩

/- ### Physics phase lemmas -/

/-- The physics phase never resizes a ball. -/
theorem moveBall_radius (inp : Input) (b : Ball) : (moveBall inp b).radius = b.radius := rfl

/-- A ball with zero velocity magnitude whose center is inside the valid
region does not move during the physics phase. -/
theorem moveBall_still (inp : Input) (b : Ball)
    (hm : b.velocity.magnitude = 0)
    (hx1 : b.radius ≤ b.point.x) (hx2 : b.point.x ≤ inp.width - b.radius)
    (hy1 : b.radius ≤ b.point.y) (hy2 : b.point.y ≤ inp.height - b.radius) :
    (moveBall inp b).point = b.point := by
  have hc : clamp b.velocity.magnitude (-Ball.MAX_VELOCITY) Ball.MAX_VELOCITY = 0 := by
    rw [hm]
    unfold clamp Ball.MAX_VELOCITY
    norm_num
  unfold moveBall
  rw [hc]
  simp only [AngleVec.to_xy, zero_mul, add_zero]
  rw [if_neg (not_lt.mpr hx1), if_neg (not_lt.mpr hx2),
    if_neg (not_lt.mpr hy1), if_neg (not_lt.mpr hy2)]

/-- After the physics phase, a ball no larger than half the canvas in each
dimension sits inside `[radius, width − radius] × [radius, height − radius]`:
the final clamps force it. -/
theorem moveBall_inBounds (inp : Input) (b : Ball)
    (hw : 2 * b.radius ≤ inp.width) (hh : 2 * b.radius ≤ inp.height) :
    b.radius ≤ (moveBall inp b).point.x ∧
    (moveBall inp b).point.x ≤ inp.width - b.radius ∧
    b.radius ≤ (moveBall inp b).point.y ∧
    (moveBall inp b).point.y ≤ inp.height - b.radius := by
  unfold moveBall
  refine ⟨?_, ?_, ?_, ?_⟩ <;> simp only [] <;> split_ifs <;> linarith

/- ### Collection lemmas for the whole tick -/

/-- The collision pass preserves the number of balls. -/
theorem collidePassAux_length (balls : List Ball) : ∀ (l : List Ball) (k : Nat),
    (collidePassAux balls k l).length = l.length
  | [], _ => rfl
  | b :: rest, k => by
    simp [collidePassAux, collidePassAux_length balls rest (k + 1)]

/-- The collision pass preserves the number of balls (entry point). -/
theorem collidePass_length (bs : List Ball) : (collidePass bs).length = bs.length :=
  collidePassAux_length bs bs 0

/-- Every ball published by the collision pass is the resolution of a ball of
the input snapshot at the same index. -/
theorem mem_collidePass (bs : List Ball) (b : Ball) (hmem : b ∈ collidePass bs) :
    ∃ n b₀, bs.get? n = some b₀ ∧ b = resolveBall bs n b₀ := by
  obtain ⟨n, hn⟩ := List.mem_iff_get?.mp hmem
  rw [collidePass_get?] at hn
  obtain ⟨b₀, hb₀, hb⟩ := Option.map_eq_some'.mp hn
  exact ⟨n, b₀, hb₀, hb.symm⟩

/-- A successful `findFirst` returns an index inside the list. -/
theorem findFirst_lt {α : Type} (p : α → Bool) : ∀ (l : List α) (i : Nat),
    findFirst p l = some i → i < l.length
  | [], i, h => by simp [findFirst] at h
  | a :: as, i, h => by
    simp only [findFirst] at h
    split_ifs at h with hp
    · cases h
      simp
    · obtain ⟨j, hj, rfl⟩ := Option.map_eq_some'.mp h
      have := findFirst_lt p as j hj
      simp only [List.length_cons]
      omega

/-- The release phase always clears the active ball. -/
theorem releaseBall_active (inp : Input) (g : GameState) :
    (releaseBall inp g).active_ball = none := by
  unfold releaseBall
  rcases g.active_ball with _ | i
  · rfl
  · cases hh : g.balls[i]? <;> simp [hh]

/-- The release phase keeps the number of balls. -/
theorem releaseBall_length (inp : Input) (g : GameState) :
    (releaseBall inp g).balls.length = g.balls.length := by
  unfold releaseBall
  rcases g.active_ball with _ | i
  · rfl
  · cases hh : g.balls[i]? <;> simp [hh]

/-- The snap phase keeps the ball count and the selection. -/
theorem snapBall_shape (inp : Input) (g : GameState) :
    (snapBall inp g).balls.length = g.balls.length ∧
    (snapBall inp g).active_ball = g.active_ball := by
  unfold snapBall
  split_ifs
  · rcases h : g.active_ball with _ | i
    · exact ⟨rfl, h⟩
    · cases hh : g.balls[i]? <;> simp [hh, h, List.length_set]
  · exact ⟨rfl, rfl⟩

/-- The snap phase preserves selection validity. -/
theorem snapBall_valid (inp : Input) (g : GameState) (hv : validSel g) :
    validSel (snapBall inp g) := by
  intro i hact
  rw [(snapBall_shape inp g).1]
  exact hv i ((snapBall_shape inp g).2 ▸ hact)

/-- The mouse phase preserves selection validity and the ball count. -/
theorem mousePhase_valid (inp : Input) (g : GameState) (hv : validSel g) :
    validSel (mousePhase inp g) ∧ (mousePhase inp g).balls.length = g.balls.length := by
  unfold mousePhase
  split_ifs
  · refine ⟨fun i hact => ?_, rfl⟩
    exact findFirst_lt _ _ _ hact
  · refine ⟨fun i hact => ?_, releaseBall_length inp g⟩
    rw [releaseBall_active inp g] at hact
    cases hact
  · exact ⟨hv, rfl⟩

/- ### Claim C8 -/

/-- C8 counterexample: a grabbed moving ball with the snap key held does not
end the tick at the pointer position. One ball at `(300, 300)` with velocity
`⟨direction 0, magnitude 50⟩`, snapped to the cursor `(200, 200)`, is then
still integrated: it ends the tick at `(250, 200) ≠ (200, 200)`. -/
theorem claim_C8_counterexample :
    (GameState.update ⟨⟨200, 200⟩, true, false, false, false, 1600, 900⟩
        ⟨[⟨⟨300, 300⟩, ⟨0, 50⟩, 30, 0, false⟩], some 0⟩).balls.get? 0 =
      some ⟨⟨250, 200⟩, ⟨0, 48.5⟩, 30, 0, false⟩ ∧
    (250:ℝ) ≠ 200 := by
  constructor
  · norm_num [GameState.update, snapBall, mousePhase, selectBall, releaseBall, moveBall,
      collidePass, collidePassAux, resolveBall, resolveAux, clamp, slow, rustSignum,
      AngleVec.to_xy, Ball.MAX_VELOCITY, Ball.DECELERATION, Ball.BOUNCE_DECELERATION,
      Ball.SLOW_MAGNITUDE, Real.cos_zero, Real.sin_zero, List.set]
  · norm_num

/-- C8 (amended): with the snap key held and ball `i` grabbed, the snap phase
sets the ball's center to the pointer position before integration; the physics
phase still integrates afterward, so the end-of-tick center equals the pointer
position when additionally the ball's velocity magnitude is zero, no mouse
edge fires, and the pointer lies in the valid region for the ball's radius. -/
theorem claim_C8 :
    (∀ (inp : Input) (g : GameState) (i : Nat) (ball : Ball),
      inp.zHeld = true → g.active_ball = some i → g.balls.get? i = some ball →
      (snapBall inp g).balls.get? i = some { ball with point := inp.cursor }) ∧
    (∀ (inp : Input) (g : GameState) (i : Nat) (ball : Ball),
      inp.zHeld = true → inp.leftJustPressed = false → inp.leftJustReleased = false →
      g.active_ball = some i → g.balls.get? i = some ball →
      ball.velocity.magnitude = 0 →
      ball.radius ≤ inp.cursor.x → inp.cursor.x ≤ inp.width - ball.radius →
      ball.radius ≤ inp.cursor.y → inp.cursor.y ≤ inp.height - ball.radius →
      ((GameState.update inp g).balls.get? i).map Ball.point = some inp.cursor) := by
  have hsnapEq : ∀ (inp : Input) (g : GameState) (i : Nat) (ball : Ball),
      inp.zHeld = true → g.active_ball = some i → g.balls.get? i = some ball →
      snapBall inp g = ⟨g.balls.set i { ball with point := inp.cursor }, g.active_ball⟩ := by
    intro inp g i ball hz hact hget
    simp [snapBall, hz, hact, (List.get?_eq_getElem? _ _).symm.trans hget]
  constructor
  · intro inp g i ball hz hact hget
    obtain ⟨hlt, -⟩ := List.get?_eq_some.mp hget
    rw [hsnapEq inp g i ball hz hact hget, List.get?_eq_getElem?]
    exact List.getElem?_set_eq_of_lt _ hlt
  · intro inp g i ball hz hp hr hact hget hm hcx1 hcx2 hcy1 hcy2
    obtain ⟨hlt, -⟩ := List.get?_eq_some.mp hget
    have hmp : mousePhase inp (snapBall inp g) = snapBall inp g := by
      simp [mousePhase, hp, hr]
    have hupd : GameState.update inp g =
        ⟨collidePass ((g.balls.set i { ball with point := inp.cursor }).map (moveBall inp)),
          g.active_ball⟩ := by
      unfold GameState.update
      rw [hmp, hsnapEq inp g i ball hz hact hget]
    rw [hupd]
    have hset : (g.balls.set i { ball with point := inp.cursor }).get? i
        = some { ball with point := inp.cursor } := by
      rw [List.get?_eq_getElem?]
      exact List.getElem?_set_eq_of_lt _ hlt
    rw [collidePass_get?, List.get?_map, hset]
    simp only [Option.map_some']
    rw [(resolveBall_point _ _ _).1,
      moveBall_still inp { ball with point := inp.cursor } hm hcx1 hcx2 hcy1 hcy2]

/-- Witness for C8: one grabbed resting ball at `(300, 300)`, cursor at
`(200, 200)`, snap key held, no mouse edges. -/
theorem claim_C8_witness :
    ((⟨⟨200, 200⟩, true, false, false, false, 1600, 900⟩ : Input).zHeld = true ∧
      (GameState.mk [⟨⟨300, 300⟩, ⟨0, 0⟩, 30, 0, false⟩] (some 0)).active_ball = some 0 ∧
      (GameState.mk [⟨⟨300, 300⟩, ⟨0, 0⟩, 30, 0, false⟩] (some 0)).balls.get? 0
        = some ⟨⟨300, 300⟩, ⟨0, 0⟩, 30, 0, false⟩ ∧
      (30:ℝ) ≤ 200 ∧ (200:ℝ) ≤ 1600 - 30 ∧ (30:ℝ) ≤ 200 ∧ (200:ℝ) ≤ 900 - 30) ∧
    ((GameState.update ⟨⟨200, 200⟩, true, false, false, false, 1600, 900⟩
        (GameState.mk [⟨⟨300, 300⟩, ⟨0, 0⟩, 30, 0, false⟩] (some 0))).balls.get? 0).map
        Ball.point = some ⟨200, 200⟩ :=
  ⟨⟨rfl, rfl, rfl, by norm_num, by norm_num, by norm_num, by norm_num⟩,
   claim_C8.2 ⟨⟨200, 200⟩, true, false, false, false, 1600, 900⟩
     (GameState.mk [⟨⟨300, 300⟩, ⟨0, 0⟩, 30, 0, false⟩] (some 0)) 0
     ⟨⟨300, 300⟩, ⟨0, 0⟩, 30, 0, false⟩ rfl rfl rfl rfl rfl rfl
     (by norm_num) (by norm_num) (by norm_num) (by norm_num)⟩

/- ### Claim C9 -/

/-- C9: at the end of any tick, every published ball whose radius is at most
half the canvas width and at most half the canvas height lies inside
`[radius, width − radius]` horizontally and `[radius, height − radius]`
vertically: the physics-phase clamps enforce it and the collision pass never
moves a ball. -/
theorem claim_C9 (inp : Input) (g : GameState) (b : Ball)
    (hmem : b ∈ (GameState.update inp g).balls)
    (hw : 2 * b.radius ≤ inp.width) (hh : 2 * b.radius ≤ inp.height) :
    b.radius ≤ b.point.x ∧ b.point.x ≤ inp.width - b.radius ∧
    b.radius ≤ b.point.y ∧ b.point.y ≤ inp.height - b.radius := by
  have hmem' : b ∈ collidePass
      ((mousePhase inp (snapBall inp g)).balls.map (moveBall inp)) := hmem
  obtain ⟨n, b₀, hb0, rfl⟩ := mem_collidePass _ b hmem'
  rw [List.get?_map] at hb0
  obtain ⟨a, -, rfl⟩ := Option.map_eq_some'.mp hb0
  rw [(resolveBall_point _ _ _).1, (resolveBall_point _ _ _).2] at *
  rw [moveBall_radius] at *
  exact moveBall_inBounds inp a hw hh

/-- Witness for C9: a resting ball at `(100, 100)` with radius 30 on a
1600 × 900 canvas, with no input edges. -/
theorem claim_C9_witness :
    ((⟨⟨100, 100⟩, ⟨0, 0⟩, 30, 0, false⟩ : Ball) ∈
      (GameState.update ⟨⟨0, 0⟩, false, false, false, false, 1600, 900⟩
        (GameState.mk [⟨⟨100, 100⟩, ⟨0, 0⟩, 30, 0, false⟩] none)).balls ∧
     2 * (30:ℝ) ≤ 1600 ∧ 2 * (30:ℝ) ≤ 900) ∧
    ((30:ℝ) ≤ 100 ∧ (100:ℝ) ≤ 1600 - 30 ∧ (30:ℝ) ≤ 100 ∧ (100:ℝ) ≤ 900 - 30) := by
  have hmem : (⟨⟨100, 100⟩, ⟨0, 0⟩, 30, 0, false⟩ : Ball) ∈
      (GameState.update ⟨⟨0, 0⟩, false, false, false, false, 1600, 900⟩
        (GameState.mk [⟨⟨100, 100⟩, ⟨0, 0⟩, 30, 0, false⟩] none)).balls := by
    norm_num [GameState.update, snapBall, mousePhase, selectBall, releaseBall, moveBall,
      collidePass, collidePassAux, resolveBall, resolveAux, clamp, slow, rustSignum,
      AngleVec.to_xy, Ball.MAX_VELOCITY, Ball.DECELERATION, Ball.BOUNCE_DECELERATION,
      Ball.SLOW_MAGNITUDE, Real.cos_zero, Real.sin_zero]
  exact ⟨⟨hmem, by norm_num, by norm_num⟩,
    claim_C9 ⟨⟨0, 0⟩, false, false, false, false, 1600, 900⟩
      (GameState.mk [⟨⟨100, 100⟩, ⟨0, 0⟩, 30, 0, false⟩] none)
      ⟨⟨100, 100⟩, ⟨0, 0⟩, 30, 0, false⟩ hmem (by norm_num) (by norm_num)⟩

/- ### Claim C10 -/

/-- C10: the tick preserves validity of the stored selection index — a press
stores an index found by scanning the collection, a release clears it, the
snap phase changes neither collection length nor selection, and the physics
and collision phases rebuild a collection of the same length — and a reset
clears the selection, so the direct ball indexings stay in bounds. -/
theorem claim_C10 :
    (∀ (inp : Input) (g : GameState), validSel g → validSel (GameState.update inp g)) ∧
    (∀ bs : List Ball, validSel (GameState.reset bs)) := by
  constructor
  · intro inp g hv i hact
    have hmv := mousePhase_valid inp (snapBall inp g) (snapBall_valid inp g hv)
    have hact' : (mousePhase inp (snapBall inp g)).active_ball = some i := hact
    have hlt := hmv.1 i hact'
    have hlen : (GameState.update inp g).balls.length
        = (mousePhase inp (snapBall inp g)).balls.length := by
      show (collidePass _).length = _
      rw [collidePass_length, List.length_map]
    rw [hlen]
    exact hlt
  · intro bs i h
    simp [GameState.reset] at h

/-- Witness for C10: a single-ball state with the ball selected. -/
theorem claim_C10_witness :
    validSel (GameState.mk [⟨⟨100, 100⟩, ⟨0, 0⟩, 30, 0, false⟩] (some 0)) ∧
    validSel (GameState.update ⟨⟨0, 0⟩, false, false, false, false, 1600, 900⟩
      (GameState.mk [⟨⟨100, 100⟩, ⟨0, 0⟩, 30, 0, false⟩] (some 0))) := by
  have hv : validSel (GameState.mk [⟨⟨100, 100⟩, ⟨0, 0⟩, 30, 0, false⟩] (some 0)) := by
    intro i h
    simp only [Option.some.injEq] at h
    simp [← h]
  exact ⟨hv, claim_C10.1 ⟨⟨0, 0⟩, false, false, false, false, 1600, 900⟩
    (GameState.mk [⟨⟨100, 100⟩, ⟨0, 0⟩, 30, 0, false⟩] (some 0)) hv⟩

end BallsGame
